import Mathlib

/-!
Shallow embedding of `forwarded-for` (src/index.js): resolution of the
originating ip/port/secure triple of a connection from proxy headers with a
transport-object fallback chain.

JavaScript values relevant to the code are modelled explicitly:
an absent (`undefined`) field is `Option.none`; the loose values that flow
into the `port` position of the `Forwarded` constructor (strings, numbers or
`undefined`) are a `JSVal`; `NaN` is represented by `Option.none` in the
result of numeric coercion. String primitives (`split`, `trim`, ToNumber)
are implemented by structural recursion over the character list of the
string so that every definition evaluates inside the kernel.
-/

/-- Values that the code feeds into the `port` argument of the `Forwarded`
constructor: `undefined`, a string (header token or address field), or a
number (a transport-object port field). -/
inductive JSVal where
  | undef : JSVal
  | str : String → JSVal
  | num : Int → JSVal
deriving DecidableEq

/-- Splitting a character list on a one-character separator, accumulating
the current chunk in reverse; models `String.prototype.split` with a
one-character separator (an empty input yields one empty chunk). -/
def jsSplitAux (sep : Char) : List Char → List Char → List (List Char)
  | [], acc => [acc.reverse]
  | x :: xs, acc =>
    if x = sep then acc.reverse :: jsSplitAux sep xs []
    else jsSplitAux sep xs (x :: acc)

/-- Models `s.split(sep)` for a one-character separator. -/
def jsSplit (s : String) (sep : Char) : List String :=
  (jsSplitAux sep s.data []).map String.mk

/-- Splitting a character list on the two-character separator "::",
scanning left to right; models `s.split('::')`. -/
def splitTwoColons : List Char → List Char → List (List Char)
  | [], acc => [acc.reverse]
  | [x], acc => [(x :: acc).reverse]
  | x :: y :: xs, acc =>
    if x = ':' && y = ':' then acc.reverse :: splitTwoColons xs []
    else splitTwoColons (y :: xs) (x :: acc)

/-- Numeric value of a list of decimal digit characters. -/
def decDigits (l : List Char) : Nat :=
  l.foldl (fun n c => n * 10 + (c.toNat - 48)) 0

/-- Models ECMAScript ToNumber on strings, restricted to the fragment the
code can meet: optional surrounding whitespace, optional single sign,
decimal digits. Empty (after trimming) is 0; everything else (including the
other numeric literal forms, which no header port value uses) is NaN,
encoded as `none`. -/
def jsStrToNumber (s : String) : Option Int :=
  let t := ((s.data.dropWhile Char.isWhitespace).reverse.dropWhile Char.isWhitespace).reverse
  match t with
  | [] => some 0
  | c :: rest =>
    let mag := if c = '-' || c = '+' then rest else c :: rest
    let sign : Int := if c = '-' then -1 else 1
    if !mag.isEmpty && mag.all Char.isDigit then
      some (sign * (decDigits mag : Int))
    else
      none

/-- ECMAScript ToNumber (`+port` in the code) on a `JSVal`; `none` is NaN. -/
def JSVal.toNumber : JSVal → Option Int
  | .undef => none
  | .str s => jsStrToNumber s
  | .num n => some n

/-- Reading a possibly-undefined string field as a JS value. -/
def jsOfStr? : Option String → JSVal
  | some a => JSVal.str a
  | none => JSVal.undef

/-- The `Forwarded` record: resolved ip, secure flag and port. -/
structure Forwarded where
  ip : String
  secure : Bool
  port : Int
deriving DecidableEq

/-- The `Forwarded` constructor: `this.ip = ip || '127.0.0.1'`,
`this.secure = !!secured`, `this.port = +port || 0`. The ip argument is a
possibly-undefined string (empty string is falsy, so it also yields the
default); the secured argument is `undefined` at every call site in the
code. -/
def Forwarded.make (ip : Option String) (port : JSVal) (secured : Option Bool) : Forwarded :=
  { ip := match ip with
      | some s => if s = "" then "127.0.0.1" else s
      | none => "127.0.0.1"
    secure := secured.getD false
    port := (JSVal.toNumber port).getD 0 }

/-- One entry of the proxy-header table: ip/port/proto header names (the
fourth entry of the table has no proto header). -/
structure ProxyEntry where
  ip : String
  port : String
  proto : Option String
deriving DecidableEq

/-- The `proxies` table from the code, in its priority order. -/
def proxies : List ProxyEntry :=
  [ ⟨"x-forwarded-for", "x-forwarded-port", some "x-forwarded-proto"⟩,
    ⟨"z-forwarded-for", "z-forwarded-port", some "z-forwarded-proto"⟩,
    ⟨"forwarded", "forwarded-port", some "forwarded-proto"⟩,
    ⟨"x-real-ip", "x-real-port", none⟩ ]

/-- Received HTTP headers: an association list of lowercase names to string
values. A key's presence models the JS `in` operator. -/
abbrev Headers := List (String × String)

/-- Key presence: `key in headers`. -/
def Headers.has (h : Headers) (k : String) : Bool :=
  h.any (fun kv => kv.1 == k)

/-- Value lookup: `headers[key]`, `none` when absent (`undefined`). -/
def Headers.get (h : Headers) (k : String) : Option String :=
  (h.find? (fun kv => kv.1 == k)).map (fun kv => kv.2)

/-- Models one octet of Node's `net.isIPv4`: one to three decimal digits,
no leading zero, value at most 255. -/
def isIPv4Octet (l : List Char) : Bool :=
  decide (0 < l.length) && decide (l.length ≤ 3) && l.all Char.isDigit &&
    (l.length == 1 || l.headD '0' != '0') && decide (decDigits l ≤ 255)

/-- Models Node's `net.isIPv4`: four valid octets separated by dots. -/
def isIPv4 (s : String) : Bool :=
  let parts := jsSplitAux '.' s.data []
  parts.length == 4 && parts.all isIPv4Octet

/-- A 1-4 digit hexadecimal group of an IPv6 address. -/
def isHexQuad (l : List Char) : Bool :=
  decide (0 < l.length) && decide (l.length ≤ 4) &&
    l.all (fun c => c.isDigit || ('a' ≤ c && c ≤ 'f') || ('A' ≤ c && c ≤ 'F'))

/-- Models Node's `net.isIPv6` on the colon-hexadecimal forms: eight groups,
or a single `::` compression with fewer than eight groups around it. The
IPv4-embedded tail form is not modelled; no claim depends on it. -/
def isIPv6 (s : String) : Bool :=
  match splitTwoColons s.data [] with
  | [whole] =>
    let gs := jsSplitAux ':' whole []
    gs.length == 8 && gs.all isHexQuad
  | [l, r] =>
    let lg := if l.isEmpty then [] else jsSplitAux ':' l []
    let rg := if r.isEmpty then [] else jsSplitAux ':' r []
    decide (lg.length + rg.length < 8) && lg.all isHexQuad && rg.all isHexQuad
  | _ => false

/-- Models Node's `net.isIP`: 4, 6, or 0 for an invalid address. The code
uses its truthiness via `Array.prototype.every`. -/
def netIsIP (s : String) : Nat :=
  if isIPv4 s then 4 else if isIPv6 s then 6 else 0

/-- The value `Array.prototype.shift` returns: the first element, or
`undefined` on an empty array. -/
def headVal : List String → JSVal
  | [] => JSVal.undef
  | s :: _ => JSVal.str s

/-- The loop body of `forwarded`: scan the proxy table in order; commit to
the first entry whose ip header key is present; split the ip and port header
values on commas; if any ip token fails `net.isIP` the whole header
resolution returns `undefined` (no fallback to later entries); otherwise
build a `Forwarded` from the first ip and first port token. -/
def findProxy (headers : Headers) : List ProxyEntry → Option Forwarded
  | [] => none
  | p :: rest =>
    if headers.has p.ip then
      let ports := jsSplit ((headers.get p.port).getD "") ','
      let ips := jsSplit ((headers.get p.ip).getD "") ','
      if ips.isEmpty || !(ips.all fun s => netIsIP s != 0) then
        none
      else
        some (Forwarded.make ips.head? (headVal ports) none)
    else
      findProxy headers rest

/-- The `forwarded` function: search the headers against the proxy table. -/
def forwarded (headers : Headers) : Option Forwarded :=
  findProxy headers proxies

/-- A socket-like object: may expose `remoteAddress`. -/
structure Socketish where
  remoteAddress : Option String
deriving DecidableEq

/-- A connection-like object hanging off `obj.connection`: may expose
`remoteAddress`/`remotePort` and a nested `socket`. -/
structure Connectionish where
  remoteAddress : Option String
  remotePort : JSVal
  socket : Option Socketish
deriving DecidableEq

/-- The socket-like argument of `parse`: any subset of the recognized fields
may be present. `remotePort` carries `JSVal.undef` when absent (its presence
is never tested by the code); `port`'s presence is tested, so it is an
`Option`. -/
structure ConnObj where
  remoteAddress : Option String
  remotePort : JSVal
  address : Option String
  port : Option JSVal
  connection : Option Connectionish
  socket : Option Socketish
deriving DecidableEq

/-- The derived socket: `connection ? connection.socket : obj.socket` (an
object is always truthy). -/
def derivedSocket (obj : ConnObj) : Option Socketish :=
  match obj.connection with
  | some c => c.socket
  | none => obj.socket

/-- The last two stages of `parse`: if the derived socket exposes
`remoteAddress`, its `remoteAddress` is passed as BOTH the ip and the port
argument; otherwise `new Forwarded()` with no arguments. -/
def socketStage (socket : Option Socketish) : Forwarded :=
  match socket with
  | some s =>
    if s.remoteAddress.isSome then
      Forwarded.make s.remoteAddress (jsOfStr? s.remoteAddress) none
    else
      Forwarded.make none JSVal.undef none
  | none => Forwarded.make none JSVal.undef none

/-- The transport fallback chain of `parse`, reached when `forwarded`
produced nothing: own `remoteAddress`, then the `address`/`port` pair, then
`connection.remoteAddress`, then the derived socket stage. The
`typeof obj` guard of the code is always satisfied here since the argument
is an object. -/
def fallback (obj : ConnObj) : Forwarded :=
  if obj.remoteAddress.isSome then
    Forwarded.make obj.remoteAddress obj.remotePort none
  else if obj.address.isSome && obj.port.isSome then
    Forwarded.make obj.address (obj.port.getD JSVal.undef) none
  else
    match obj.connection with
    | some c =>
      if c.remoteAddress.isSome then
        Forwarded.make c.remoteAddress c.remotePort none
      else
        socketStage (derivedSocket obj)
    | none => socketStage (derivedSocket obj)

/-- The exported `parse(obj, headers, whitelist)`: header resolution first
(it receives the whitelist but its parameter list ignores it), else the
transport fallback chain. The whitelist is never consulted. -/
def parse (obj : ConnObj) (headers : Headers) (whitelist : List String) : Forwarded :=
  match forwarded headers with
  | some f => f
  | none => fallback obj

/-! ## Helper lemmas -/

/-- Key presence agrees with lookup success on the header list. -/
theorem Headers.has_eq_isSome (h : Headers) (k : String) :
    Headers.has h k = (Headers.get h k).isSome := by
  induction h with
  | nil => rfl
  | cons kv t ih =>
    simp only [Headers.has, Headers.get, List.any_cons, List.find?_cons] at *
    cases hkv : (kv.1 == k) with
    | true => simp [hkv]
    | false => simpa [hkv] using ih

/-- Entries whose ip header key is absent are skipped by the scan. -/
theorem findProxy_append_of_not_has (headers : Headers) (pre rest : List ProxyEntry)
    (hpre : ∀ e ∈ pre, headers.has e.ip = false) :
    findProxy headers (pre ++ rest) = findProxy headers rest := by
  induction pre with
  | nil => rfl
  | cons p ps ih =>
    have hp : headers.has p.ip = false := hpre p (List.mem_cons_self p ps)
    rw [List.cons_append, findProxy, hp]
    exact ih (fun e he => hpre e (List.mem_cons_of_mem p he))

/-- The scan commits to the first entry whose ip header key is present. -/
theorem findProxy_cons_of_has (headers : Headers) (p : ProxyEntry) (rest : List ProxyEntry)
    (hp : headers.has p.ip = true) :
    findProxy headers (p :: rest) =
      (let ports := jsSplit ((headers.get p.port).getD "") ','
       let ips := jsSplit ((headers.get p.ip).getD "") ','
       if ips.isEmpty || !(ips.all fun s => netIsIP s != 0) then
         none
       else
         some (Forwarded.make ips.head? (headVal ports) none)) := by
  rw [findProxy, hp]
  simp

/-- Every result of the header scan is built by the `Forwarded`
constructor with an undefined secured argument. -/
theorem findProxy_isMake (headers : Headers) (l : List ProxyEntry) (f : Forwarded)
    (hf : findProxy headers l = some f) :
    ∃ i p, f = Forwarded.make i p none := by
  induction l with
  | nil => exact absurd hf (by simp [findProxy])
  | cons e rest ih =>
    rw [findProxy] at hf
    by_cases he : headers.has e.ip
    · rw [if_pos he] at hf
      dsimp only at hf
      split at hf
      · exact absurd hf (by simp)
      · exact ⟨_, _, (Option.some_inj.mp hf).symm⟩
    · rw [if_neg he] at hf
      exact ih hf

/-- Every result of the transport fallback chain is built by the
`Forwarded` constructor with an undefined secured argument. -/
theorem fallback_isMake (obj : ConnObj) :
    ∃ i p, fallback obj = Forwarded.make i p none := by
  unfold fallback socketStage
  split
  · exact ⟨_, _, rfl⟩
  · split
    · exact ⟨_, _, rfl⟩
    · split
      · split
        · exact ⟨_, _, rfl⟩
        · split
          · split
            · exact ⟨_, _, rfl⟩
            · exact ⟨_, _, rfl⟩
          · exact ⟨_, _, rfl⟩
      · split
        · split
          · exact ⟨_, _, rfl⟩
          · exact ⟨_, _, rfl⟩
        · exact ⟨_, _, rfl⟩

/-- Every result of `parse` is built by the `Forwarded` constructor with an
undefined secured argument. -/
theorem parse_isMake (obj : ConnObj) (headers : Headers) (w : List String) :
    ∃ i p, parse obj headers w = Forwarded.make i p none := by
  unfold parse
  cases hf : forwarded headers with
  | some f => exact findProxy_isMake headers proxies f hf
  | none => exact fallback_isMake obj

/-! ## Claim theorems -/

/-- C1: if the highest-priority proxy table entry whose ip header key is
present has an ip value whose comma-separated tokens do not all pass the IP
validator, header resolution yields nothing — it does not fall back to any
lower-priority entry — and `parse` returns the transport-fallback Result. -/
theorem resolve_no_cascade_on_invalid_header
    (headers : Headers) (obj : ConnObj) (w : List String)
    (pre post : List ProxyEntry) (p : ProxyEntry)
    (htable : proxies = pre ++ p :: post)
    (hpre : ∀ e ∈ pre, headers.has e.ip = false)
    (hmatch : headers.has p.ip = true)
    (hbad : (jsSplit ((headers.get p.ip).getD "") ',').all (fun s => netIsIP s != 0) = false) :
    forwarded headers = none ∧ parse obj headers w = fallback obj := by
  have hf : forwarded headers = none := by
    rw [forwarded, htable, findProxy_append_of_not_has headers pre _ hpre,
        findProxy_cons_of_has headers p post hmatch]
    dsimp only
    rw [hbad]
    simp
  exact ⟨hf, by rw [parse, hf]⟩

/-- Witness for C1: x-forwarded-for is present but not an IP, and the valid
z-forwarded-for below it is ignored; the transport fallback is returned. -/
theorem resolve_no_cascade_on_invalid_header_witness :
    forwarded [("x-forwarded-for", "not-an-ip"), ("z-forwarded-for", "1.2.3.4")] = none ∧
    parse ⟨none, JSVal.undef, none, none, none, none⟩
        [("x-forwarded-for", "not-an-ip"), ("z-forwarded-for", "1.2.3.4")] [] =
      fallback ⟨none, JSVal.undef, none, none, none, none⟩ :=
  resolve_no_cascade_on_invalid_header
    [("x-forwarded-for", "not-an-ip"), ("z-forwarded-for", "1.2.3.4")]
    ⟨none, JSVal.undef, none, none, none, none⟩ [] [] _ _
    rfl (by simp) (by decide) (by decide)

/-- C2: evaluation of the code at the claim's input. The spec expects
`{ip: "203.0.113.5", port: 443}` for the spaced chain
"203.0.113.5, 10.0.0.1", but the space-prefixed token " 10.0.0.1" fails the
IP validator, so the whole header resolution is abandoned and the default
transport fallback is returned; the space-free chain behaves as the spec
expects. -/
theorem resolve_spaced_chain_falls_back :
    parse ⟨none, JSVal.undef, none, none, none, none⟩
        [("x-forwarded-for", "203.0.113.5, 10.0.0.1"), ("x-forwarded-port", "443,8080")] [] =
      ⟨"127.0.0.1", false, 0⟩ ∧
    netIsIP " 10.0.0.1" = 0 ∧
    parse ⟨none, JSVal.undef, none, none, none, none⟩
        [("x-forwarded-for", "203.0.113.5,10.0.0.1"), ("x-forwarded-port", "443,8080")] [] =
      ⟨"203.0.113.5", false, 443⟩ :=
  ⟨by decide, by decide, by decide⟩

/-- C4: `parse` is a total function: on every connection object, header map
and whitelist it returns a fully-populated Result whose ip is a non-empty
string; no input makes it fail. -/
theorem resolve_always_returns_result (obj : ConnObj) (headers : Headers) (w : List String) :
    ∃ r : Forwarded, parse obj headers w = r ∧ r.ip ≠ "" := by
  obtain ⟨i, p, hp⟩ := parse_isMake obj headers w
  refine ⟨parse obj headers w, rfl, ?_⟩
  rw [hp]
  rcases i with _ | s
  · simp [Forwarded.make]
  · by_cases hs : s = "" <;> simp [Forwarded.make, hs]

/-- C6 counterexample: a negative x-forwarded-port value flows through the
numeric coercion unchanged, so the resulting port is negative, refuting the
claim that the port is always a non-negative integer. -/
theorem resolve_port_nonnegative_cex :
    (parse ⟨none, JSVal.undef, none, none, none, none⟩
      [("x-forwarded-for", "1.2.3.4"), ("x-forwarded-port", "-5")] []).port = -5 ∧
    ¬ 0 ≤ (parse ⟨none, JSVal.undef, none, none, none, none⟩
      [("x-forwarded-for", "1.2.3.4"), ("x-forwarded-port", "-5")] []).port :=
  ⟨by decide, by decide⟩

/-- C6 amended: every Result produced by `parse` is built by the `Forwarded`
constructor, so its port is the numeric coercion of the supplied port value
with 0 substituted for NaN (unknown or unparsable values); it is an integer,
never a string or NaN, but not necessarily non-negative. -/
theorem resolve_port_is_coerced_number (obj : ConnObj) (headers : Headers) (w : List String) :
    ∃ i p s, parse obj headers w = Forwarded.make i p s ∧
      (parse obj headers w).port = (JSVal.toNumber p).getD 0 := by
  obtain ⟨i, p, hp⟩ := parse_isMake obj headers w
  refine ⟨i, p, none, hp, ?_⟩
  rw [hp]
  rfl

/-- C7: no resolution path ever sets the secure flag: every call site of the
`Forwarded` constructor leaves the secured argument undefined, so `parse`
always returns secure = false. -/
theorem resolve_never_secure (obj : ConnObj) (headers : Headers) (w : List String) :
    (parse obj headers w).secure = false := by
  obtain ⟨i, p, hp⟩ := parse_isMake obj headers w
  rw [hp]
  rfl

/-- C8: an empty header map together with a connection object exposing none
of the recognized fields resolves to the default Result: loopback ip, port
0, not secure. -/
theorem resolve_default_result (w : List String) :
    parse ⟨none, JSVal.undef, none, none, none, none⟩ [] w = ⟨"127.0.0.1", false, 0⟩ :=
  rfl

/-- C9: the whitelist argument has no influence on the Result: `parse`
returns the same value for any two whitelists. -/
theorem resolve_ignores_whitelist (obj : ConnObj) (headers : Headers) (w1 w2 : List String) :
    parse obj headers w1 = parse obj headers w2 :=
  rfl

/-- C3: for a header map holding a valid single-hop x-forwarded-for value
and none of the other recognized proxy header keys, `parse` returns that IP
together with the first token of the x-forwarded-port header, whatever the
connection object and whitelist are: the connection object does not
influence the result. -/
theorem resolve_single_hop_xff_ignores_connection
    (headers : Headers) (v : String) (obj : ConnObj) (w : List String)
    (hv : headers.get "x-forwarded-for" = some v)
    (hsingle : jsSplit v ',' = [v])
    (hvalid : netIsIP v ≠ 0)
    (hz : headers.has "z-forwarded-for" = false)
    (hfw : headers.has "forwarded" = false)
    (hxr : headers.has "x-real-ip" = false) :
    parse obj headers w =
      Forwarded.make (some v) (headVal (jsSplit ((headers.get "x-forwarded-port").getD "") ',')) none ∧
    (parse obj headers w).ip = v := by
  have hhas : headers.has "x-forwarded-for" = true := by
    rw [Headers.has_eq_isSome, hv]
    rfl
  have hvne : v ≠ "" := by
    intro h0
    rw [h0] at hvalid
    exact hvalid rfl
  have hb : (netIsIP v != 0) = true := by
    simpa using hvalid
  have hfor : forwarded headers =
      some (Forwarded.make (some v)
        (headVal (jsSplit ((headers.get "x-forwarded-port").getD "") ',')) none) := by
    rw [forwarded]
    rw [show proxies =
      (⟨"x-forwarded-for", "x-forwarded-port", some "x-forwarded-proto"⟩ : ProxyEntry) ::
        proxies.tail from rfl]
    rw [findProxy_cons_of_has headers _ _ hhas]
    dsimp only
    rw [hv]
    dsimp only [Option.getD]
    rw [hsingle]
    simp [hb]
  refine ⟨by rw [parse, hfor], ?_⟩
  rw [parse, hfor]
  simp [Forwarded.make, hvne]

/-- Witness for C3: a single valid x-forwarded-for hop wins over a
connection object carrying a different address. -/
theorem resolve_single_hop_xff_ignores_connection_witness :
    parse ⟨some "9.9.9.9", JSVal.num 1234, none, none, none, none⟩
        [("x-forwarded-for", "203.0.113.7"), ("x-forwarded-port", "81")] [] =
      Forwarded.make (some "203.0.113.7")
        (headVal (jsSplit ((Headers.get [("x-forwarded-for", "203.0.113.7"), ("x-forwarded-port", "81")] "x-forwarded-port").getD "") ',')) none ∧
    (parse ⟨some "9.9.9.9", JSVal.num 1234, none, none, none, none⟩
        [("x-forwarded-for", "203.0.113.7"), ("x-forwarded-port", "81")] []).ip = "203.0.113.7" :=
  resolve_single_hop_xff_ignores_connection
    [("x-forwarded-for", "203.0.113.7"), ("x-forwarded-port", "81")] "203.0.113.7"
    ⟨some "9.9.9.9", JSVal.num 1234, none, none, none, none⟩ []
    rfl (by decide) (by decide) rfl rfl rfl

/-- C5: when every earlier stage fails and the derived socket exposes
`remoteAddress`, the Result is built by passing `socket.remoteAddress` as
both the ip and the port argument, so the port is the numeric coercion of
the address string, defaulting to 0. -/
theorem resolve_socket_fallback_reuses_address
    (obj : ConnObj) (headers : Headers) (w : List String) (s : Socketish) (a : String)
    (hprox : forwarded headers = none)
    (hra : obj.remoteAddress = none)
    (haddr : obj.address = none ∨ obj.port = none)
    (hconn : ∀ c, obj.connection = some c → c.remoteAddress = none)
    (hsock : derivedSocket obj = some s)
    (hsa : s.remoteAddress = some a) :
    parse obj headers w = Forwarded.make (some a) (JSVal.str a) none ∧
    (parse obj headers w).port = (jsStrToNumber a).getD 0 := by
  have hstage : socketStage (derivedSocket obj) = Forwarded.make (some a) (JSVal.str a) none := by
    rw [hsock, socketStage, hsa]
    rfl
  have hfb : fallback obj = Forwarded.make (some a) (JSVal.str a) none := by
    rw [fallback, hra]
    rcases haddr with h | h <;> rw [h] <;>
      cases hc : obj.connection with
      | none => simpa [hc] using hstage
      | some c =>
        have := hconn c hc
        simpa [hc, this] using hstage
  refine ⟨by rw [parse, hprox, hfb], ?_⟩
  rw [parse, hprox, hfb]
  rfl

/-- Witness for C5: a bare socket with remoteAddress "192.168.0.7" yields
that ip and the port coerced from the same string, which is 0. -/
theorem resolve_socket_fallback_reuses_address_witness :
    parse ⟨none, JSVal.undef, none, none, none, some ⟨some "192.168.0.7"⟩⟩ [] [] =
      Forwarded.make (some "192.168.0.7") (JSVal.str "192.168.0.7") none ∧
    (parse ⟨none, JSVal.undef, none, none, none, some ⟨some "192.168.0.7"⟩⟩ [] []).port =
      (jsStrToNumber "192.168.0.7").getD 0 :=
  resolve_socket_fallback_reuses_address
    ⟨none, JSVal.undef, none, none, none, some ⟨some "192.168.0.7"⟩⟩ [] []
    ⟨some "192.168.0.7"⟩ "192.168.0.7"
    rfl rfl (Or.inl rfl) (fun c hc => by simp at hc) rfl rfl

/-- C10: when the highest-priority matched entry carries only valid IP
tokens but its paired port header is absent or empty, `parse` returns the
first IP of the chain with port 0 (the empty port string coerces to 0). -/
theorem resolve_missing_port_defaults_to_zero
    (headers : Headers) (obj : ConnObj) (w : List String)
    (pre post : List ProxyEntry) (p : ProxyEntry) (ips : List String)
    (htable : proxies = pre ++ p :: post)
    (hpre : ∀ e ∈ pre, headers.has e.ip = false)
    (hmatch : headers.has p.ip = true)
    (hips : jsSplit ((headers.get p.ip).getD "") ',' = ips)
    (hne : ips ≠ [])
    (hvalid : ips.all (fun s => netIsIP s != 0) = true)
    (hport : (headers.get p.port).getD "" = "") :
    parse obj headers w = Forwarded.make ips.head? (JSVal.str "") none ∧
    (parse obj headers w).port = 0 ∧
    (parse obj headers w).ip = ips.headD "" := by
  have hfor : forwarded headers = some (Forwarded.make ips.head? (JSVal.str "") none) := by
    rw [forwarded, htable, findProxy_append_of_not_has headers pre _ hpre,
        findProxy_cons_of_has headers p post hmatch]
    dsimp only
    rw [hport, hips]
    have hempty : ips.isEmpty = false := by
      cases ips with
      | nil => exact absurd rfl hne
      | cons x xs => rfl
    rw [hvalid, hempty]
    rfl
  obtain ⟨v, rest, rfl⟩ : ∃ v rest, ips = v :: rest := by
    cases ips with
    | nil => exact absurd rfl hne
    | cons x xs => exact ⟨x, xs, rfl⟩
  have hvne : v ≠ "" := by
    intro h0
    have hv0 : (netIsIP v != 0) = true := by
      have := List.all_eq_true.mp hvalid v (List.mem_cons_self v rest)
      simpa using this
    rw [h0] at hv0
    simp [netIsIP, isIPv4, isIPv6, jsSplitAux, splitTwoColons, isIPv4Octet] at hv0
  refine ⟨by rw [parse, hfor], ?_, ?_⟩
  · rw [parse, hfor]
    rfl
  · rw [parse, hfor]
    simp [Forwarded.make, hvne]

/-- Witness for C10: a lone valid "forwarded" header with no
"forwarded-port" resolves to that ip with port 0. -/
theorem resolve_missing_port_defaults_to_zero_witness :
    parse ⟨none, JSVal.undef, none, none, none, none⟩ [("forwarded", "10.0.0.1")] [] =
      Forwarded.make ["10.0.0.1"].head? (JSVal.str "") none ∧
    (parse ⟨none, JSVal.undef, none, none, none, none⟩ [("forwarded", "10.0.0.1")] []).port = 0 ∧
    (parse ⟨none, JSVal.undef, none, none, none, none⟩ [("forwarded", "10.0.0.1")] []).ip =
      ["10.0.0.1"].headD "" :=
  resolve_missing_port_defaults_to_zero
    [("forwarded", "10.0.0.1")] ⟨none, JSVal.undef, none, none, none, none⟩ []
    [⟨"x-forwarded-for", "x-forwarded-port", some "x-forwarded-proto"⟩,
     ⟨"z-forwarded-for", "z-forwarded-port", some "z-forwarded-proto"⟩]
    [⟨"x-real-ip", "x-real-port", none⟩]
    ⟨"forwarded", "forwarded-port", some "forwarded-proto"⟩ ["10.0.0.1"]
    rfl (by decide) (by decide) (by decide) (by decide) (by decide) (by decide)
